import Mathlib

/-!
# k8s-executor: a shallow embedding of the remediation drivers

The development follows the Go sources file by file:

* `config/config.go`            : `Config`, `config.New`
* `delete-deployment/slack.go`  : `Slack`, `InitSlack`, `KubeEvent`, `NewKubeEvent`, `Message`,
                                  `prepareSlackAttachment`, `notifySlack`
* `delete-deployment/main.go`   : `prompt`, `listPodsByDeployLabel`, `deleteDeployment`, the
                                  deployment loop and `main`
* `delete-pods/main.go`         : `prompt`, `deleteDeployment` and the deployment pass

Go strings are Lean strings, a Go `nil` map or pointer is `none`, a Go `error` is an
`Option String` (`none` is the `nil` error), and a `panic` ends the run: an `Outcome` records the
calls made so far together with the fact that the process died.
-/

namespace K8sExecutor

/-! ## fmt.Sprintf, restricted to the verb used by the sources -/

/-- Rendering of the arguments left over once the format string is exhausted
(`%!(EXTRA string=a, string=b)`), without the surrounding brackets. -/
def extraArgs : List String → List Char
  | [] => []
  | [a] => "string=".data ++ a.data
  | a :: b :: rest => "string=".data ++ a.data ++ ", ".data ++ extraArgs (b :: rest)

/-- The formatting loop of `fmt.Sprintf` for string operands: `%s` consumes the next operand
(or prints `%!s(MISSING)` when none is left), `%%` prints a percent sign, every other character
is copied.  Operands left at the end are reported the way Go does.  The format strings of the
sources hold no other verb, so no other verb is interpreted. -/
def sprintfChars : List Char → List String → List Char
  | '%' :: 's' :: rest, a :: args => a.data ++ sprintfChars rest args
  | '%' :: 's' :: rest, [] => "%!s(MISSING)".data ++ sprintfChars rest []
  | '%' :: '%' :: rest, args => '%' :: sprintfChars rest args
  | c :: rest, args => c :: sprintfChars rest args
  | [], [] => []
  | [], a :: args => "%!(EXTRA ".data ++ extraArgs (a :: args) ++ [')']

/-- Model of `fmt.Sprintf(format, args...)` with string operands. -/
def Sprintf (format : String) (args : List String) : String :=
  ⟨sprintfChars format.data args⟩

/-- A Go `map[string]string` literal, as its list of entries. -/
abbrev GoMap := List (String × String)

/-- The one-value map read `m[k]`: the zero value `""` when the key is absent. -/
def GoMap.index (m : GoMap) (k : String) : String :=
  (m.lookup k).getD ""

/-- The two-value map read `v, ok := m[k]`. -/
def GoMap.commaOk (m : GoMap) (k : String) : String × Bool :=
  match m.lookup k with
  | some v => (v, true)
  | none => ("", false)

/-! ## config/config.go -/

/-- Config struct contains kubewatch configuration. -/
structure Config where
  Namespace : String
  Token : String
  Channel : String
  deriving DecidableEq, Repr

namespace config

/-- `config.New`: creates a new config object; the error is always `nil`. -/
def New (ns token channel : String) : Config × Option String :=
  ({ Namespace := ns, Token := token, Channel := channel }, none)

end config

/-! ## delete-deployment/slack.go -/

/-- The table `slackColors`. -/
def slackColors : GoMap :=
  [("Normal", "good"), ("Warning", "warning"), ("Danger", "danger")]

/-- The format string `slackErrMsg`. -/
def slackErrMsg : String :=
  "\n%s\n\nYou need to set both slack token and channel for slack notify,\nusing \"--token/-t\" and \"--channel/-c\", or using environment variables:\n\nexport KW_SLACK_TOKEN=slack_token\nexport KW_SLACK_CHANNEL=slack_channel\n\nCommand line flags will override environment variables\n\n"

/-- Slack handler: the token and the channel used to notify. -/
structure Slack where
  Token : String
  Channel : String
  deriving DecidableEq, Repr

/-- `(s *Slack) checkMissingSlackVars`. -/
def Slack.checkMissingSlackVars (s : Slack) : Option String :=
  if s.Token = "" ∨ s.Channel = "" then
    some (Sprintf slackErrMsg ["Missing slack token or channel"])
  else
    none

/-- `InitSlack`: prepares the slack configuration.  `getenv` is `os.Getenv`, which yields `""`
for a variable that is not set.  Both results are returned, as in Go. -/
def InitSlack (getenv : String → String) (c : Config) : Slack × Option String :=
  let token := c.Token
  let channel := c.Channel
  let token := if token = "" then getenv "SLACK_TOKEN" else token
  let channel := if channel = "" then getenv "SLACK_CHANNEL" else channel
  let s : Slack := { Token := token, Channel := channel }
  (s, s.checkMissingSlackVars)

/-- KubeEvent represents an event got from the k8s api server. -/
structure KubeEvent where
  Namespace : String
  Name : String
  Reason : String
  Action : String
  Status : String
  deriving DecidableEq, Repr

/-- The table `m` from action to status. -/
def m : GoMap :=
  [("created", "Normal"), ("deleted", "Danger"), ("updated", "Warning")]

/-- `NewKubeEvent`. -/
def NewKubeEvent (ns name reason action : String) : KubeEvent :=
  let status := m.index action
  { Namespace := ns, Name := name, Reason := reason, Action := action, Status := status }

/-- `(e *KubeEvent) Message`. -/
def KubeEvent.Message (e : KubeEvent) : String :=
  Sprintf "`%s` in namespace `%s` has been `%s` due to `%s`\n"
    [e.Name, e.Namespace, e.Action, e.Reason]

/-- `slack.AttachmentField`, with the fields the sources set. -/
structure AttachmentField where
  Title : String
  Value : String
  deriving DecidableEq, Repr

/-- `slack.Attachment`, with the fields the sources set. -/
structure Attachment where
  Color : String
  Fields : List AttachmentField
  MarkdownIn : List String
  deriving DecidableEq, Repr

/-- `slack.PostMessageParameters`, with the fields the sources set. -/
structure PostMessageParameters where
  Attachments : List Attachment
  AsUser : Bool
  deriving DecidableEq, Repr

/-- `prepareSlackAttachment`. -/
def prepareSlackAttachment (e : KubeEvent) : Attachment :=
  let attachment : Attachment :=
    { Color := "", Fields := [{ Title := "kubewatch", Value := e.Message }], MarkdownIn := [] }
  let attachment :=
    match slackColors.commaOk e.Status with
    | (color, true) => { attachment with Color := color }
    | (_, false) => attachment
  { attachment with MarkdownIn := ["fields"] }

/-! ## The cluster objects the drivers read -/

/-- `v1.ResourceList`: a map from resource name to quantity. -/
abbrev ResourceList := List (String × String)

/-- `v1.ResourceRequirements`; a `nil` map is `none`, which differs from an empty map. -/
structure ResourceRequirements where
  Limits : Option ResourceList
  Requests : Option ResourceList
  deriving DecidableEq, Repr

/-- `v1.Container`, with the fields the sources read. -/
structure Container where
  Name : String
  Resources : ResourceRequirements
  deriving DecidableEq, Repr

/-- `v1.PodSpec`, with the fields the sources read. -/
structure PodSpec where
  NodeName : String
  Containers : List Container
  deriving DecidableEq, Repr

/-- `v1.Pod`, with the fields the sources read. -/
structure Pod where
  Name : String
  Spec : PodSpec
  deriving DecidableEq, Repr

/-- `metav1.LabelSelector`; only `MatchLabels` is read by the sources. -/
structure LabelSelector where
  MatchLabels : GoMap
  deriving DecidableEq, Repr

/-- `appsv1.DeploymentSpec`; `Replicas` and `Selector` are pointers in Go. -/
structure DeploymentSpec where
  Replicas : Option Int
  Selector : Option LabelSelector
  deriving DecidableEq, Repr

/-- `appsv1.Deployment`, with the fields the sources read. -/
structure Deployment where
  Name : String
  Spec : DeploymentSpec
  deriving DecidableEq, Repr

/-- `metav1.DeletePropagationForeground`. -/
def DeletePropagationForeground : String := "Foreground"

/-! ## Calls to the collaborators, and the collaborators themselves -/

/-- One call made by a driver, with the error it got back (`none` is the `nil` error).
`Scan` is the line read of `prompt`; `notifySlack` marks the entry into the notifier and
`PostMessage` is the request the notifier sends. -/
inductive Call where
  | Scan (err : Option String)
  | ListDeployments (ns : String) (err : Option String)
  | ListPods (ns : String) (labels : GoMap) (err : Option String)
  | Delete (name : String) (propagation : String) (err : Option String)
  | notifySlack (ns name reason action : String)
  | PostMessage (token channel text : String) (params : PostMessageParameters)
      (err : Option String)
  deriving DecidableEq, Repr

/-- The two list calls only read the cluster. -/
def Call.isRead : Call → Bool
  | .ListDeployments _ _ => true
  | .ListPods _ _ _ => true
  | _ => false

/-- The calls of a trace that consume input or change state. -/
def effects (calls : List Call) : List Call :=
  calls.filter (fun c => !c.isRead)

/-- The collaborators of a run: standard input, the cluster API and the Slack API.  Every answer
may depend on `hist`, the calls made so far that consume input or change state (`effects`:
everything but the two list calls, which only read). -/
structure Cluster where
  /-- The value of `scanner.Err()` after the line read of a `prompt`. -/
  Scan : (hist : List Call) → Option String
  /-- Answer of `Deployments(ns).List`. -/
  ListDeployments : (hist : List Call) → (ns : String) → Except String (List Deployment)
  /-- Answer of `Pods(ns).List` for the selector made from the label set. -/
  ListPods : (hist : List Call) → (ns : String) → (labels : GoMap) → Except String (List Pod)
  /-- Answer of `Deployments(ns).Delete(name, options)`. -/
  Delete : (hist : List Call) → (name propagation : String) → Option String
  /-- Answer of `PostMessage` on the Slack client made from `token`. -/
  PostMessage : (hist : List Call) → (token channel text : String) →
    PostMessageParameters → Option String

/-- What a piece of a driver did: the calls it made, in order, and whether it panicked. -/
structure Outcome where
  calls : List Call
  panicked : Bool
  deriving DecidableEq, Repr

/-- The error part of a two-valued Go result. -/
def errOf {α : Type} : Except String α → Option String
  | .ok _ => none
  | .error e => some e

/-- `(s *Slack) notifySlack`: builds the event and posts it; an error of the post is logged
and dropped, so the calls are all that is left of it. -/
def Slack.notifySlack (s : Slack) (cluster : Cluster) (hist : List Call)
    (ns name reason action : String) : List Call :=
  let e := NewKubeEvent ns name reason action
  let attachment := prepareSlackAttachment e
  let params : PostMessageParameters := { Attachments := [attachment], AsUser := true }
  let entered := Call.notifySlack ns name reason action
  let err := cluster.PostMessage (hist ++ [entered]) s.Token s.Channel "" params
  [entered, Call.PostMessage s.Token s.Channel "" params err]

/-! ## delete-deployment/main.go -/

namespace DeleteDeployment

/-- `prompt`: reads one line from standard input and panics on a read error. -/
def prompt (cluster : Cluster) (hist : List Call) : Outcome :=
  match cluster.Scan hist with
  | some e => { calls := [Call.Scan (some e)], panicked := true }
  | none => { calls := [Call.Scan none], panicked := false }

/-- `listPodsByDeployLabel`: lists the pods matching the label set of the deployment.  The
selector is read through a pointer, so a deployment without one panics before the call. -/
def listPodsByDeployLabel (cluster : Cluster) (hist : List Call) (ns : String)
    (deploy : Deployment) : Outcome × Except String (List Pod) :=
  match deploy.Spec.Selector with
  | none => ({ calls := [], panicked := true }, .error "nil pointer dereference")
  | some sel =>
    let res := cluster.ListPods hist ns sel.MatchLabels
    ({ calls := [Call.ListPods ns sel.MatchLabels (errOf res)], panicked := false }, res)

/-- `deleteDeployment`: prompts, then sends a foreground delete and panics when it fails. -/
def deleteDeployment (cluster : Cluster) (hist : List Call) (name : String) : Outcome :=
  let p := prompt cluster hist
  if p.panicked then p
  else
    let err := cluster.Delete (hist ++ p.calls) name DeletePropagationForeground
    { calls := p.calls ++ [Call.Delete name DeletePropagationForeground err],
      panicked := err.isSome }

/-- The loop over `pod.Spec.Containers` (lines 77 to 85): the value of `shouldDeleteDeployment`
when the loop is left. -/
def containerLoop (shouldDeleteDeployment : Bool) : List Container → Bool
  | [] => shouldDeleteDeployment
  | c :: cs =>
    if c.Resources.Requests.isNone || c.Resources.Limits.isNone then true
    else containerLoop shouldDeleteDeployment cs

/-- The loop over `pods.Items` (lines 76 to 91). -/
def podLoop (cluster : Cluster) (slackCli : Slack) (ns : String) (deploy : Deployment)
    (hist : List Call) (shouldDeleteDeployment : Bool) : List Pod → Outcome
  | [] => { calls := [], panicked := false }
  | pod :: pods =>
    let shouldDeleteDeployment := containerLoop shouldDeleteDeployment pod.Spec.Containers
    if shouldDeleteDeployment then
      let d := deleteDeployment cluster hist deploy.Name
      if d.panicked then d
      else
        let n := slackCli.notifySlack cluster (hist ++ d.calls) ns deploy.Name
          "empty resources constraints" "deleted"
        { calls := d.calls ++ n, panicked := false }
    else podLoop cluster slackCli ns deploy hist shouldDeleteDeployment pods

/-- One turn of the loop over `deployList.Items` (lines 69 to 91): a failed pod lookup is
logged and the turn ends (`continue`). -/
def deployBody (cluster : Cluster) (slackCli : Slack) (ns : String) (hist : List Call)
    (deploy : Deployment) : Outcome :=
  match listPodsByDeployLabel cluster hist ns deploy with
  | (l, res) =>
    if l.panicked then l
    else
      match res with
      | .error _ => l
      | .ok pods =>
        let p := podLoop cluster slackCli ns deploy hist false pods
        { calls := l.calls ++ p.calls, panicked := p.panicked }

/-- The loop over `deployList.Items` (lines 68 to 92). -/
def deployLoop (cluster : Cluster) (slackCli : Slack) (ns : String) (hist : List Call) :
    List Deployment → Outcome
  | [] => { calls := [], panicked := false }
  | deploy :: rest =>
    let b := deployBody cluster slackCli ns hist deploy
    if b.panicked then b
    else
      let r := deployLoop cluster slackCli ns (hist ++ effects b.calls) rest
      { calls := b.calls ++ r.calls, panicked := r.panicked }

/-- `main`, from line 45 on: `cluster` stands for the client built before (a failure there
panics before any call), `getenv` is `os.Getenv` and the two strings are the values of the
flags `token` and `channel`. -/
def main (cluster : Cluster) (getenv : String → String) (slackToken slackChannel : String) :
    Outcome :=
  let ns := "default"
  match config.New ns slackToken slackChannel with
  | (_, some _) => { calls := [], panicked := true }
  | (conf, none) =>
    match InitSlack getenv conf with
    | (_, some _) => { calls := [], panicked := true }
    | (slackCli, none) =>
      let p := prompt cluster []
      if p.panicked then p
      else
        match cluster.ListDeployments p.calls ns with
        | .error e => { calls := p.calls ++ [Call.ListDeployments ns (some e)], panicked := true }
        | .ok items =>
          let r := deployLoop cluster slackCli ns p.calls items
          { calls := p.calls ++ Call.ListDeployments ns none :: r.calls, panicked := r.panicked }

end DeleteDeployment

/-! ## delete-pods/main.go, the deployment pass -/

namespace DeletePods

/-- `apiv1.NamespaceDefault`. -/
def NamespaceDefault : String := "default"

/-- `prompt`: reads one line from standard input and panics on a read error. -/
def prompt (cluster : Cluster) (hist : List Call) : Outcome :=
  match cluster.Scan hist with
  | some e => { calls := [Call.Scan (some e)], panicked := true }
  | none => { calls := [Call.Scan none], panicked := false }

/-- `deleteDeployment`: prompts, then sends a foreground delete and panics when it fails. -/
def deleteDeployment (name : String) (cluster : Cluster) (hist : List Call) : Outcome :=
  let p := prompt cluster hist
  if p.panicked then p
  else
    let err := cluster.Delete (hist ++ p.calls) name DeletePropagationForeground
    { calls := p.calls ++ [Call.Delete name DeletePropagationForeground err],
      panicked := err.isSome }

/-- The loop over `v.Spec.Containers` (lines 93 to 103): the first container without requests
or limits has the deployment deleted and ends this loop. -/
def containerLoop (cluster : Cluster) (name : String) (hist : List Call) :
    List Container → Outcome
  | [] => { calls := [], panicked := false }
  | c :: cs =>
    if c.Resources.Requests.isNone || c.Resources.Limits.isNone then
      deleteDeployment name cluster hist
    else containerLoop cluster name hist cs

/-- The loop over `pods.Items` (lines 91 to 104). -/
def podLoop (cluster : Cluster) (name : String) (hist : List Call) : List Pod → Outcome
  | [] => { calls := [], panicked := false }
  | v :: vs =>
    let c := containerLoop cluster name hist v.Spec.Containers
    if c.panicked then c
    else
      let r := podLoop cluster name (hist ++ c.calls) vs
      { calls := c.calls ++ r.calls, panicked := r.panicked }

/-- The loop over `deployList.Items` (lines 82 to 106).  `Replicas` and `Selector` are read
through pointers, so a deployment without one of them panics. -/
def deployLoop (cluster : Cluster) (ns : String) (hist : List Call) : List Deployment → Outcome
  | [] => { calls := [], panicked := false }
  | deploy :: rest =>
    match deploy.Spec.Replicas, deploy.Spec.Selector with
    | none, _ => { calls := [], panicked := true }
    | some _, none => { calls := [], panicked := true }
    | some _, some sel =>
      match cluster.ListPods hist ns sel.MatchLabels with
      | .error e =>
        let r := deployLoop cluster ns hist rest
        { calls := Call.ListPods ns sel.MatchLabels (some e) :: r.calls, panicked := r.panicked }
      | .ok pods =>
        let p := podLoop cluster deploy.Name hist pods
        if p.panicked then
          { calls := Call.ListPods ns sel.MatchLabels none :: p.calls, panicked := true }
        else
          let r := deployLoop cluster ns (hist ++ effects p.calls) rest
          { calls := Call.ListPods ns sel.MatchLabels none :: p.calls ++ r.calls,
            panicked := r.panicked }

/-- Lines 74 to 106 of `main`: the prompt, the listing of the deployments of the namespace
`default` and the loop over them; `hist` holds the calls of the service pass before. -/
def deploymentPass (cluster : Cluster) (hist : List Call) : Outcome :=
  let ns := "default"
  let p := prompt cluster hist
  if p.panicked then p
  else
    match cluster.ListDeployments (hist ++ p.calls) NamespaceDefault with
    | .error e =>
      { calls := p.calls ++ [Call.ListDeployments NamespaceDefault (some e)], panicked := true }
    | .ok items =>
      let r := deployLoop cluster ns (hist ++ p.calls) items
      { calls := p.calls ++ Call.ListDeployments NamespaceDefault none :: r.calls,
        panicked := r.panicked }

end DeletePods

/-! ## Vocabulary of the statements -/

/-- Delete requests for the deployment called `name`. -/
def Call.isDeleteOf (name : String) : Call → Bool
  | .Delete n _ _ => n == name
  | _ => false

namespace DeleteDeployment

/-- The pods that hold a container without requests or without limits. -/
def offending (pods : List Pod) : Prop :=
  ∃ p ∈ pods, ∃ c ∈ p.Spec.Containers,
    c.Resources.Requests = none ∨ c.Resources.Limits = none

/-- What the loop over the pods does once a pod with an offending container is met. -/
def remediate (cluster : Cluster) (slackCli : Slack) (ns : String) (deploy : Deployment)
    (hist : List Call) : Outcome :=
  let d := deleteDeployment cluster hist deploy.Name
  if d.panicked then d
  else
    { calls := d.calls ++ slackCli.notifySlack cluster (hist ++ d.calls) ns deploy.Name
        "empty resources constraints" "deleted",
      panicked := false }

/-- The parameters the notifier posts for a deleted deployment. -/
def deletedParams (ns name : String) : PostMessageParameters :=
  { Attachments :=
      [prepareSlackAttachment (NewKubeEvent ns name "empty resources constraints" "deleted")],
    AsUser := true }

/-- The shapes one turn of the deployment loop can take. -/
inductive Turn (slackCli : Slack) (ns : String) (name : String) : Outcome → Prop where
  | noSelector : Turn slackCli ns name ⟨[], true⟩
  | lookupFailed (l : GoMap) (e : String) :
      Turn slackCli ns name ⟨[Call.ListPods ns l (some e)], false⟩
  | compliant (l : GoMap) : Turn slackCli ns name ⟨[Call.ListPods ns l none], false⟩
  | readFailed (l : GoMap) (e : String) :
      Turn slackCli ns name ⟨[Call.ListPods ns l none, Call.Scan (some e)], true⟩
  | deleteFailed (l : GoMap) (e : String) :
      Turn slackCli ns name
        ⟨[Call.ListPods ns l none, Call.Scan none,
          Call.Delete name DeletePropagationForeground (some e)], true⟩
  | deleted (l : GoMap) (err : Option String) :
      Turn slackCli ns name
        ⟨[Call.ListPods ns l none, Call.Scan none,
          Call.Delete name DeletePropagationForeground none,
          Call.notifySlack ns name "empty resources constraints" "deleted",
          Call.PostMessage slackCli.Token slackCli.Channel "" (deletedParams ns name) err],
         false⟩

/-- The shapes the whole deployment loop can take: turns that go on, closed by the end of the
list or by a turn that panics. -/
inductive Run (slackCli : Slack) (ns : String) : Outcome → Prop where
  | done : Run slackCli ns ⟨[], false⟩
  | stop (name : String) (b : Outcome) :
      Turn slackCli ns name b → b.panicked = true → Run slackCli ns b
  | step (name : String) (b r : Outcome) :
      Turn slackCli ns name b → b.panicked = false → Run slackCli ns r →
      Run slackCli ns ⟨b.calls ++ r.calls, r.panicked⟩

/-- The client `main` hands to the notifier. -/
def mainSlack (getenv : String → String) (slackToken slackChannel : String) : Slack :=
  (InitSlack getenv (config.New "default" slackToken slackChannel).1).1

end DeleteDeployment

/-! ## Sample clusters -/

/-- The deployment `web` with pod selector `app=web`. -/
def webDeployment : Deployment :=
  { Name := "web",
    Spec := { Replicas := some 1, Selector := some { MatchLabels := [("app", "web")] } } }

/-- The deployment `api` with pod selector `app=api`. -/
def apiDeployment : Deployment :=
  { Name := "api",
    Spec := { Replicas := some 1, Selector := some { MatchLabels := [("app", "api")] } } }

/-- A pod of `web` whose container `app` has neither requests nor limits. -/
def webPodBare : Pod :=
  { Name := "web-1",
    Spec := { NodeName := "node-1",
              Containers := [{ Name := "app", Resources := { Limits := none, Requests := none } }] } }

/-- A second pod of `web`, bare as well. -/
def webPodBare2 : Pod :=
  { Name := "web-2",
    Spec := { NodeName := "node-2",
              Containers := [{ Name := "app", Resources := { Limits := none, Requests := none } }] } }

/-- A pod of `web` whose container has requests and limits set. -/
def webPodSized : Pod :=
  { Name := "web-1",
    Spec := { NodeName := "node-1",
              Containers := [{ Name := "app",
                               Resources := { Limits := some [("cpu", "200m")],
                                              Requests := some [("cpu", "100m")] } }] } }

/-- Pod lookup of the samples: `app=web` is backed by one bare pod, the lookup for `app=api`
fails, nothing else is matched. -/
def samplePods (labels : GoMap) : Except String (List Pod) :=
  if labels = [("app", "web")] then .ok [webPodBare]
  else if labels = [("app", "api")] then .error "timeout"
  else .ok []

/-- A cluster whose namespace `default` holds `deploys`, with `pods` as pod lookup.  The first
line read succeeds; the later ones report `confirmErr`, every delete reports `deleteErr`, and
every post succeeds. -/
def stubCluster (deploys : List Deployment) (pods : GoMap → Except String (List Pod))
    (confirmErr deleteErr : Option String) : Cluster :=
  { Scan := fun hist => if hist.isEmpty then none else confirmErr
    ListDeployments := fun _ ns => if ns = "default" then .ok deploys else .ok []
    ListPods := fun _ ns labels => if ns = "default" then pods labels else .ok []
    Delete := fun _ _ _ => deleteErr
    PostMessage := fun _ _ _ _ _ => none }

/-- Namespace `default` holds the deployment `web`, backed by one bare pod; every read and
every request succeeds. -/
def webCluster : Cluster :=
  stubCluster [webDeployment] samplePods none none

/-- An environment in which no variable is set. -/
def noEnv : String → String := fun _ => ""

/-- An environment that sets the two variables named by `slackErrMsg`, and nothing else. -/
def kwEnv : String → String := fun v =>
  if v = "KW_SLACK_TOKEN" then "xoxb-env"
  else if v = "KW_SLACK_CHANNEL" then "#ops"
  else ""

/-! ## Lemmas on the deployment loop of delete-deployment -/

namespace DeleteDeployment

theorem deleteDeployment_cases (cluster : Cluster) (hist : List Call) (name : String) :
    (∃ e, deleteDeployment cluster hist name = ⟨[Call.Scan (some e)], true⟩) ∨
    (∃ e, deleteDeployment cluster hist name =
      ⟨[Call.Scan none, Call.Delete name DeletePropagationForeground (some e)], true⟩) ∨
    deleteDeployment cluster hist name =
      ⟨[Call.Scan none, Call.Delete name DeletePropagationForeground none], false⟩ := by
  unfold deleteDeployment prompt
  cases hs : cluster.Scan hist with
  | some e => left; exact ⟨e, by simp⟩
  | none =>
    right
    cases hd : cluster.Delete (hist ++ [Call.Scan none]) name DeletePropagationForeground with
    | some e => left; exact ⟨e, by simp [hd]⟩
    | none => right; simp [hd]

theorem containerLoop_false_iff (cs : List Container) :
    containerLoop false cs = true ↔
      ∃ c ∈ cs, c.Resources.Requests = none ∨ c.Resources.Limits = none := by
  induction cs with
  | nil => simp [containerLoop]
  | cons c cs ih =>
    unfold containerLoop
    by_cases h : c.Resources.Requests = none ∨ c.Resources.Limits = none
    · have : (c.Resources.Requests.isNone || c.Resources.Limits.isNone) = true := by
        rcases h with h | h <;> simp [h]
      simp [this, h]
    · have : (c.Resources.Requests.isNone || c.Resources.Limits.isNone) = false := by
        push_neg at h
        cases h1 : c.Resources.Requests <;> cases h2 : c.Resources.Limits <;> simp_all
      simp [this, h, ih]

theorem podLoop_eq (cluster : Cluster) (slackCli : Slack) (ns : String) (deploy : Deployment)
    (hist : List Call) (pods : List Pod) :
    (offending pods →
      podLoop cluster slackCli ns deploy hist false pods =
        remediate cluster slackCli ns deploy hist) ∧
    (¬ offending pods →
      podLoop cluster slackCli ns deploy hist false pods = ⟨[], false⟩) := by
  induction pods with
  | nil => simp [offending, podLoop]
  | cons p ps ih =>
    unfold podLoop
    by_cases h : containerLoop false p.Spec.Containers = true
    · have ho : offending (p :: ps) :=
        ⟨p, by simp, (containerLoop_false_iff _).1 h⟩
      simp [h, ho, remediate]
    · have h' : containerLoop false p.Spec.Containers = false := by simpa using h
      have hiff : offending (p :: ps) ↔ offending ps := by
        unfold offending
        constructor
        · rintro ⟨q, hq, hc⟩
          rcases List.mem_cons.1 hq with rfl | hq
          · exact absurd ((containerLoop_false_iff _).2 hc) h
          · exact ⟨q, hq, hc⟩
        · rintro ⟨q, hq, hc⟩
          exact ⟨q, List.mem_cons_of_mem _ hq, hc⟩
      simp only [h', Bool.false_eq_true, if_false, hiff]
      exact ih

end DeleteDeployment

theorem append_split {α : Type} {a b pre post : List α} {x : α}
    (h : a ++ b = pre ++ x :: post) :
    (∃ s, a = pre ++ x :: s ∧ post = s ++ b) ∨ (∃ q, pre = a ++ q ∧ b = q ++ x :: post) := by
  rcases List.append_eq_append_iff.1 h with ⟨q, h1, h2⟩ | ⟨q, h1, h2⟩
  · exact Or.inr ⟨q, h1, h2⟩
  · cases q with
    | nil =>
      refine Or.inr ⟨[], ?_, ?_⟩
      · simpa using h1.symm
      · simpa using h2.symm
    | cons y q =>
      simp only [List.cons_append, List.cons.injEq] at h2
      obtain ⟨rfl, rfl⟩ := h2
      exact Or.inl ⟨q, h1, rfl⟩

namespace DeleteDeployment

theorem remediate_cases (cluster : Cluster) (slackCli : Slack) (ns : String)
    (deploy : Deployment) (hist : List Call) :
    (∃ e, remediate cluster slackCli ns deploy hist = ⟨[Call.Scan (some e)], true⟩) ∨
    (∃ e, remediate cluster slackCli ns deploy hist =
      ⟨[Call.Scan none, Call.Delete deploy.Name DeletePropagationForeground (some e)], true⟩) ∨
    (∃ err, remediate cluster slackCli ns deploy hist =
      ⟨[Call.Scan none, Call.Delete deploy.Name DeletePropagationForeground none,
        Call.notifySlack ns deploy.Name "empty resources constraints" "deleted",
        Call.PostMessage slackCli.Token slackCli.Channel "" (deletedParams ns deploy.Name) err],
       false⟩) := by
  unfold remediate
  rcases deleteDeployment_cases cluster hist deploy.Name with ⟨e, h⟩ | ⟨e, h⟩ | h
  · left; exact ⟨e, by simp [h]⟩
  · right; left; exact ⟨e, by simp [h]⟩
  · right; right
    refine ⟨cluster.PostMessage
      (hist ++ [Call.Scan none, Call.Delete deploy.Name DeletePropagationForeground none] ++
        [Call.notifySlack ns deploy.Name "empty resources constraints" "deleted"])
      slackCli.Token slackCli.Channel "" (deletedParams ns deploy.Name), ?_⟩
    simp only [h, Bool.false_eq_true, if_false, Slack.notifySlack, deletedParams]
    rfl

theorem deployBody_turn (cluster : Cluster) (slackCli : Slack) (ns : String)
    (hist : List Call) (deploy : Deployment) :
    Turn slackCli ns deploy.Name (deployBody cluster slackCli ns hist deploy) := by
  unfold deployBody listPodsByDeployLabel
  cases hsel : deploy.Spec.Selector with
  | none => simpa using Turn.noSelector
  | some sel =>
    cases hl : cluster.ListPods hist ns sel.MatchLabels with
    | error e =>
      simp only [hl, errOf, Bool.false_eq_true, if_false]
      exact Turn.lookupFailed sel.MatchLabels e
    | ok pods =>
      simp only [hl, errOf, Bool.false_eq_true, if_false, List.singleton_append]
      by_cases ho : offending pods
      · rw [(podLoop_eq cluster slackCli ns deploy hist pods).1 ho]
        rcases remediate_cases cluster slackCli ns deploy hist with ⟨e, h⟩ | ⟨e, h⟩ | ⟨err, h⟩
        · rw [h]; exact Turn.readFailed _ e
        · rw [h]; exact Turn.deleteFailed _ e
        · rw [h]; exact Turn.deleted _ err
      · rw [(podLoop_eq cluster slackCli ns deploy hist pods).2 ho]
        exact Turn.compliant _

theorem deployLoop_run (cluster : Cluster) (slackCli : Slack) (ns : String)
    (deploys : List Deployment) (hist : List Call) :
    Run slackCli ns (deployLoop cluster slackCli ns hist deploys) := by
  induction deploys generalizing hist with
  | nil => exact Run.done
  | cons d ds ih =>
    unfold deployLoop
    by_cases hp : (deployBody cluster slackCli ns hist d).panicked = true
    · simp only [hp, if_true]
      exact Run.stop _ _ (deployBody_turn cluster slackCli ns hist d) hp
    · have hp' : (deployBody cluster slackCli ns hist d).panicked = false := by simpa using hp
      simp only [hp', Bool.false_eq_true, if_false]
      exact Run.step _ _ _ (deployBody_turn cluster slackCli ns hist d) hp' (ih _)

theorem turn_delete_inv {slackCli : Slack} {ns name : String} {b : Outcome}
    (hT : Turn slackCli ns name b) {pre s : List Call} {n p : String} {r : Option String}
    (h : b.calls = pre ++ Call.Delete n p r :: s) :
    (∃ l, pre = [Call.ListPods ns l none, Call.Scan none]) ∧ n = name ∧
      p = DeletePropagationForeground ∧
      ((∃ e, r = some e ∧ s = [] ∧ b.panicked = true) ∨
       (r = none ∧ b.panicked = false ∧ ∃ err, s =
          [Call.notifySlack ns name "empty resources constraints" "deleted",
           Call.PostMessage slackCli.Token slackCli.Channel "" (deletedParams ns name) err])) := by
  cases hT <;>
    rcases pre with _ | ⟨a, _ | ⟨b, _ | ⟨c, _ | ⟨d, _ | ⟨e, pre⟩⟩⟩⟩⟩ <;>
    simp at h
  · obtain ⟨rfl, rfl, ⟨rfl, rfl, rfl⟩, rfl⟩ := h
    simp
  · obtain ⟨rfl, rfl, ⟨rfl, rfl, rfl⟩, rfl⟩ := h
    simp

theorem turn_head {slackCli : Slack} {ns name : String} {b : Outcome}
    (hT : Turn slackCli ns name b) :
    b.calls = [] ∨ ∃ l r rest, b.calls = Call.ListPods ns l r :: rest := by
  cases hT
  · exact Or.inl rfl
  all_goals exact Or.inr ⟨_, _, _, rfl⟩

theorem turn_head_of_live {slackCli : Slack} {ns name : String} {b : Outcome}
    (hT : Turn slackCli ns name b) (hb : b.panicked = false) :
    ∃ l r rest, b.calls = Call.ListPods ns l r :: rest := by
  cases hT
  · simp at hb
  all_goals exact ⟨_, _, _, rfl⟩

theorem run_head {slackCli : Slack} {ns : String} {o : Outcome} (hR : Run slackCli ns o) :
    o.calls = [] ∨ ∃ l r rest, o.calls = Call.ListPods ns l r :: rest := by
  cases hR with
  | done => exact Or.inl rfl
  | stop name b hT _ => exact turn_head hT
  | step name b r hT hb _ =>
    obtain ⟨l, e, rest, h⟩ := turn_head_of_live hT hb
    exact Or.inr ⟨l, e, rest ++ r.calls, by simp [h]⟩

theorem run_delete_inv {slackCli : Slack} {ns : String} {o : Outcome}
    (hR : Run slackCli ns o) {pre post : List Call} {n p : String} {r : Option String}
    (h : o.calls = pre ++ Call.Delete n p r :: post) :
    (∃ l pre', pre = pre' ++ [Call.ListPods ns l none, Call.Scan none]) ∧
      p = DeletePropagationForeground ∧
      ((∃ e, r = some e ∧ post = [] ∧ o.panicked = true) ∨
       (r = none ∧ ∃ err post', post =
          Call.notifySlack ns n "empty resources constraints" "deleted" ::
          Call.PostMessage slackCli.Token slackCli.Channel "" (deletedParams ns n) err :: post' ∧
          (post' = [] ∨ ∃ l r' rest, post' = Call.ListPods ns l r' :: rest))) := by
  induction hR generalizing pre post with
  | done => simp at h
  | stop name b hT hb =>
    obtain ⟨⟨l, rfl⟩, rfl, hp, hcase⟩ := turn_delete_inv hT h
    refine ⟨⟨l, [], rfl⟩, hp, ?_⟩
    rcases hcase with ⟨e, rfl, rfl, _⟩ | ⟨rfl, hlive, err, rfl⟩
    · exact Or.inl ⟨e, rfl, rfl, hb⟩
    · exact Or.inr ⟨rfl, err, [], rfl, Or.inl rfl⟩
  | step name b r' hT hb hR' ih =>
    rcases append_split h with ⟨s, h1, h2⟩ | ⟨q, h1, h2⟩
    · obtain ⟨⟨l, rfl⟩, rfl, hp, hcase⟩ := turn_delete_inv hT h1
      refine ⟨⟨l, [], rfl⟩, hp, ?_⟩
      rcases hcase with ⟨e, _, _, hdead⟩ | ⟨rfl, _, err, rfl⟩
      · rw [hb] at hdead; exact absurd hdead (by simp)
      · exact Or.inr ⟨rfl, err, r'.calls, by simp [h2], run_head hR'⟩
    · obtain ⟨⟨l, q', rfl⟩, hp, hcase⟩ := ih h2
      refine ⟨⟨l, b.calls ++ q', by simp [h1]⟩, hp, hcase⟩

theorem turn_notify_inv {slackCli : Slack} {ns name : String} {b : Outcome}
    (hT : Turn slackCli ns name b) {pre s : List Call} {ns' n reason action : String}
    (h : b.calls = pre ++ Call.notifySlack ns' n reason action :: s) :
    ∃ pre', pre = pre' ++ [Call.Delete n DeletePropagationForeground none] := by
  cases hT <;>
    rcases pre with _ | ⟨a, _ | ⟨b, _ | ⟨c, _ | ⟨d, _ | ⟨e, pre⟩⟩⟩⟩⟩ <;>
    simp at h
  obtain ⟨rfl, rfl, rfl, ⟨_, rfl, _, _⟩, _⟩ := h
  exact ⟨[_, _], rfl⟩

theorem run_notify_inv {slackCli : Slack} {ns : String} {o : Outcome}
    (hR : Run slackCli ns o) {pre post : List Call} {ns' n reason action : String}
    (h : o.calls = pre ++ Call.notifySlack ns' n reason action :: post) :
    ∃ pre', pre = pre' ++ [Call.Delete n DeletePropagationForeground none] := by
  induction hR generalizing pre post with
  | done => simp at h
  | stop name b hT hb => exact turn_notify_inv hT h
  | step name b r' hT hb hR' ih =>
    rcases append_split h with ⟨s, h1, _⟩ | ⟨q, h1, h2⟩
    · exact turn_notify_inv hT h1
    · obtain ⟨q', rfl⟩ := ih h2
      exact ⟨b.calls ++ q', by simp [h1]⟩

theorem turn_scan_inv {slackCli : Slack} {ns name : String} {b : Outcome}
    (hT : Turn slackCli ns name b) {pre s : List Call} {e : String}
    (h : b.calls = pre ++ Call.Scan (some e) :: s) : s = [] ∧ b.panicked = true := by
  cases hT <;>
    rcases pre with _ | ⟨a, _ | ⟨b, _ | ⟨c, _ | ⟨d, _ | ⟨e, pre⟩⟩⟩⟩⟩ <;>
    simp at h
  · simp [h]

theorem run_scan_inv {slackCli : Slack} {ns : String} {o : Outcome}
    (hR : Run slackCli ns o) {pre post : List Call} {e : String}
    (h : o.calls = pre ++ Call.Scan (some e) :: post) : post = [] ∧ o.panicked = true := by
  induction hR generalizing pre post with
  | done => simp at h
  | stop name b hT hb => exact turn_scan_inv hT h
  | step name b r' hT hb hR' ih =>
    rcases append_split h with ⟨s, h1, h2⟩ | ⟨q, h1, h2⟩
    · have := (turn_scan_inv hT h1).2
      rw [hb] at this; exact absurd this (by simp)
    · exact ih h2

theorem main_cases (cluster : Cluster) (getenv : String → String)
    (slackToken slackChannel : String) :
    main cluster getenv slackToken slackChannel = ⟨[], true⟩ ∨
    (∃ e, main cluster getenv slackToken slackChannel = ⟨[Call.Scan (some e)], true⟩) ∨
    (∃ e, main cluster getenv slackToken slackChannel =
      ⟨[Call.Scan none, Call.ListDeployments "default" (some e)], true⟩) ∨
    (∃ items, cluster.ListDeployments [Call.Scan none] "default" = .ok items ∧
      main cluster getenv slackToken slackChannel =
      ⟨Call.Scan none :: Call.ListDeployments "default" none ::
        (deployLoop cluster (mainSlack getenv slackToken slackChannel) "default"
          [Call.Scan none] items).calls,
       (deployLoop cluster (mainSlack getenv slackToken slackChannel) "default"
          [Call.Scan none] items).panicked⟩) := by
  unfold main
  simp only [config.New]
  cases hi : (InitSlack getenv ⟨"default", slackToken, slackChannel⟩).2 with
  | some e =>
    left
    rcases hx : InitSlack getenv ⟨"default", slackToken, slackChannel⟩ with ⟨s, err⟩
    rw [hx] at hi
    simp only at hi
    subst hi
    rfl
  | none =>
    right
    rcases hx : InitSlack getenv ⟨"default", slackToken, slackChannel⟩ with ⟨s, err⟩
    have hs : mainSlack getenv slackToken slackChannel = s := by
      simp [mainSlack, config.New, hx]
    rw [hx] at hi
    simp only at hi
    subst hi
    simp only [prompt, hs]
    cases hsc : cluster.Scan [] with
    | some e => left; exact ⟨e, by simp⟩
    | none =>
      right
      simp only [Bool.false_eq_true, if_false]
      cases hl : cluster.ListDeployments [Call.Scan none] "default" with
      | error e => left; exact ⟨e, by simp⟩
      | ok items => right; exact ⟨items, rfl, by simp⟩

theorem main_delete_split {cluster : Cluster} {getenv : String → String}
    {slackToken slackChannel : String} {pre post : List Call} {n p : String}
    {r : Option String}
    (h : (main cluster getenv slackToken slackChannel).calls =
      pre ++ Call.Delete n p r :: post) :
    ∃ items q, pre = [Call.Scan none, Call.ListDeployments "default" none] ++ q ∧
      (deployLoop cluster (mainSlack getenv slackToken slackChannel) "default"
        [Call.Scan none] items).calls = q ++ Call.Delete n p r :: post ∧
      (main cluster getenv slackToken slackChannel).panicked =
        (deployLoop cluster (mainSlack getenv slackToken slackChannel) "default"
          [Call.Scan none] items).panicked := by
  rcases main_cases cluster getenv slackToken slackChannel with
    hm | ⟨e, hm⟩ | ⟨e, hm⟩ | ⟨items, _, hm⟩
  · rw [hm] at h; simp at h
  · rw [hm] at h
    rcases pre with _ | ⟨a, pre⟩ <;> simp at h
  · rw [hm] at h
    rcases pre with _ | ⟨a, _ | ⟨b, pre⟩⟩ <;> simp at h
  · refine ⟨items, ?_⟩
    rw [hm] at h ⊢
    have h' : [Call.Scan none, Call.ListDeployments "default" none] ++
        (deployLoop cluster (mainSlack getenv slackToken slackChannel) "default"
          [Call.Scan none] items).calls = pre ++ Call.Delete n p r :: post := h
    rcases append_split h' with ⟨s, h1, _⟩ | ⟨q, h1, h2⟩
    · rcases pre with _ | ⟨a, _ | ⟨b, pre⟩⟩ <;> simp at h1
    · exact ⟨q, h1, h2, rfl⟩

theorem main_notify_split {cluster : Cluster} {getenv : String → String}
    {slackToken slackChannel : String} {pre post : List Call} {ns n reason action : String}
    (h : (main cluster getenv slackToken slackChannel).calls =
      pre ++ Call.notifySlack ns n reason action :: post) :
    ∃ items q, pre = [Call.Scan none, Call.ListDeployments "default" none] ++ q ∧
      (deployLoop cluster (mainSlack getenv slackToken slackChannel) "default"
        [Call.Scan none] items).calls = q ++ Call.notifySlack ns n reason action :: post := by
  rcases main_cases cluster getenv slackToken slackChannel with
    hm | ⟨e, hm⟩ | ⟨e, hm⟩ | ⟨items, _, hm⟩
  · rw [hm] at h; simp at h
  · rw [hm] at h
    rcases pre with _ | ⟨a, pre⟩ <;> simp at h
  · rw [hm] at h
    rcases pre with _ | ⟨a, _ | ⟨b, pre⟩⟩ <;> simp at h
  · refine ⟨items, ?_⟩
    rw [hm] at h
    have h' : [Call.Scan none, Call.ListDeployments "default" none] ++
        (deployLoop cluster (mainSlack getenv slackToken slackChannel) "default"
          [Call.Scan none] items).calls =
        pre ++ Call.notifySlack ns n reason action :: post := h
    rcases append_split h' with ⟨s, h1, _⟩ | ⟨q, h1, h2⟩
    · rcases pre with _ | ⟨a, _ | ⟨b, pre⟩⟩ <;> simp at h1
    · exact ⟨q, h1, h2⟩

theorem main_scan_split {cluster : Cluster} {getenv : String → String}
    {slackToken slackChannel : String} {pre post : List Call} {e : String}
    (h : (main cluster getenv slackToken slackChannel).calls =
      pre ++ Call.Scan (some e) :: post) :
    (post = [] ∧ (main cluster getenv slackToken slackChannel).panicked = true) ∨
    ∃ items q,
      (deployLoop cluster (mainSlack getenv slackToken slackChannel) "default"
        [Call.Scan none] items).calls = q ++ Call.Scan (some e) :: post ∧
      (main cluster getenv slackToken slackChannel).panicked =
        (deployLoop cluster (mainSlack getenv slackToken slackChannel) "default"
          [Call.Scan none] items).panicked := by
  rcases main_cases cluster getenv slackToken slackChannel with
    hm | ⟨e', hm⟩ | ⟨e', hm⟩ | ⟨items, _, hm⟩
  · rw [hm] at h; simp at h
  · rw [hm] at h ⊢
    rcases pre with _ | ⟨a, pre⟩ <;> simp at h
    exact Or.inl ⟨h.2, rfl⟩
  · rw [hm] at h
    rcases pre with _ | ⟨a, _ | ⟨b, pre⟩⟩ <;> simp at h
  · right
    refine ⟨items, ?_⟩
    rw [hm] at h ⊢
    have h' : [Call.Scan none, Call.ListDeployments "default" none] ++
        (deployLoop cluster (mainSlack getenv slackToken slackChannel) "default"
          [Call.Scan none] items).calls = pre ++ Call.Scan (some e) :: post := h
    rcases append_split h' with ⟨s, h1, _⟩ | ⟨q, _, h2⟩
    · rcases pre with _ | ⟨a, _ | ⟨b, pre⟩⟩ <;> simp at h1
    · exact ⟨q, h2, rfl⟩

end DeleteDeployment

theorem effects_append (a b : List Call) : effects (a ++ b) = effects a ++ effects b := by
  simp [effects]

namespace DeleteDeployment

theorem deployLoop_cons (cluster : Cluster) (slackCli : Slack) (ns : String)
    (d : Deployment) (ds : List Deployment) (hist : List Call) :
    deployLoop cluster slackCli ns hist (d :: ds) =
      if (deployBody cluster slackCli ns hist d).panicked then
        deployBody cluster slackCli ns hist d
      else
        ⟨(deployBody cluster slackCli ns hist d).calls ++
          (deployLoop cluster slackCli ns
            (hist ++ effects (deployBody cluster slackCli ns hist d).calls) ds).calls,
         (deployLoop cluster slackCli ns
            (hist ++ effects (deployBody cluster slackCli ns hist d).calls) ds).panicked⟩ := by
  simp [deployLoop]

theorem deployLoop_append (cluster : Cluster) (slackCli : Slack) (ns : String)
    (xs ys : List Deployment) (hist : List Call) :
    deployLoop cluster slackCli ns hist (xs ++ ys) =
      if (deployLoop cluster slackCli ns hist xs).panicked then
        deployLoop cluster slackCli ns hist xs
      else
        ⟨(deployLoop cluster slackCli ns hist xs).calls ++
          (deployLoop cluster slackCli ns
            (hist ++ effects (deployLoop cluster slackCli ns hist xs).calls) ys).calls,
         (deployLoop cluster slackCli ns
            (hist ++ effects (deployLoop cluster slackCli ns hist xs).calls) ys).panicked⟩ := by
  induction xs generalizing hist with
  | nil => simp [deployLoop, effects]
  | cons x xs ih =>
    simp only [List.cons_append, deployLoop]
    by_cases hb : (deployBody cluster slackCli ns hist x).panicked = true
    · simp [hb]
    · have hb' : (deployBody cluster slackCli ns hist x).panicked = false := by simpa using hb
      simp only [hb', Bool.false_eq_true, if_false, List.append_eq]
      rw [ih]
      by_cases hx : (deployLoop cluster slackCli ns
          (hist ++ effects (deployBody cluster slackCli ns hist x).calls) xs).panicked = true
      · simp [hx]
      · have hx' : (deployLoop cluster slackCli ns
          (hist ++ effects (deployBody cluster slackCli ns hist x).calls) xs).panicked = false := by
          simpa using hx
        simp [hx', effects_append, List.append_assoc]

theorem deployBody_lookup_error (cluster : Cluster) (slackCli : Slack) (ns : String)
    (hist : List Call) (deploy : Deployment) (sel : LabelSelector) (e : String)
    (hsel : deploy.Spec.Selector = some sel)
    (herr : cluster.ListPods hist ns sel.MatchLabels = .error e) :
    deployBody cluster slackCli ns hist deploy =
      ⟨[Call.ListPods ns sel.MatchLabels (some e)], false⟩ := by
  simp [deployBody, listPodsByDeployLabel, hsel, herr, errOf]

theorem deployBody_lookup_ok (cluster : Cluster) (slackCli : Slack) (ns : String)
    (hist : List Call) (deploy : Deployment) (sel : LabelSelector) (pods : List Pod)
    (hsel : deploy.Spec.Selector = some sel)
    (hok : cluster.ListPods hist ns sel.MatchLabels = .ok pods) :
    (offending pods → deployBody cluster slackCli ns hist deploy =
      ⟨Call.ListPods ns sel.MatchLabels none :: (remediate cluster slackCli ns deploy hist).calls,
       (remediate cluster slackCli ns deploy hist).panicked⟩) ∧
    (¬ offending pods → deployBody cluster slackCli ns hist deploy =
      ⟨[Call.ListPods ns sel.MatchLabels none], false⟩) := by
  constructor
  · intro ho
    simp [deployBody, listPodsByDeployLabel, hsel, hok, errOf,
      (podLoop_eq cluster slackCli ns deploy hist pods).1 ho]
  · intro ho
    simp [deployBody, listPodsByDeployLabel, hsel, hok, errOf,
      (podLoop_eq cluster slackCli ns deploy hist pods).2 ho]

theorem turn_deletes_named {slackCli : Slack} {ns name : String} {b : Outcome}
    (hT : Turn slackCli ns name b) {n : String} (hn : n ≠ name) :
    b.calls.countP (Call.isDeleteOf n) = 0 := by
  have hn' : (name == n) = false := by simpa using (Ne.symm hn)
  cases hT <;> simp [List.countP_cons, Call.isDeleteOf, hn']

theorem deployLoop_no_delete (cluster : Cluster) (slackCli : Slack) (ns : String)
    (deploys : List Deployment) (hist : List Call) (n : String)
    (hn : n ∉ deploys.map Deployment.Name) :
    (deployLoop cluster slackCli ns hist deploys).calls.countP (Call.isDeleteOf n) = 0 := by
  induction deploys generalizing hist with
  | nil => simp [deployLoop]
  | cons d ds ih =>
    simp only [List.map_cons, List.mem_cons, not_or] at hn
    have hT := deployBody_turn cluster slackCli ns hist d
    unfold deployLoop
    by_cases hb : (deployBody cluster slackCli ns hist d).panicked = true
    · simp only [hb, if_true]
      exact turn_deletes_named hT hn.1
    · have hb' : (deployBody cluster slackCli ns hist d).panicked = false := by simpa using hb
      simp only [hb', Bool.false_eq_true, if_false, List.countP_append,
        turn_deletes_named hT hn.1, ih _ hn.2]

end DeleteDeployment

namespace DeleteDeployment

theorem deployLoop_delete_count (cluster : Cluster) (slackCli : Slack) (ns : String)
    (hist : List Call) (pre : List Deployment) (W : Deployment) (post : List Deployment)
    (sel : LabelSelector) (pods : List Pod)
    (hrun : (deployLoop cluster slackCli ns hist (pre ++ W :: post)).panicked = false)
    (hnames : ((pre ++ W :: post).map Deployment.Name).Nodup)
    (hsel : W.Spec.Selector = some sel)
    (hpods : cluster.ListPods
      (hist ++ effects (deployLoop cluster slackCli ns hist pre).calls) ns sel.MatchLabels =
        .ok pods) :
    ((∃ p ∈ pods, ∃ c ∈ p.Spec.Containers,
        c.Resources.Requests = none ∨ c.Resources.Limits = none) →
      (deployLoop cluster slackCli ns hist (pre ++ W :: post)).calls.countP
        (Call.isDeleteOf W.Name) = 1) ∧
    ((¬ ∃ p ∈ pods, ∃ c ∈ p.Spec.Containers,
        c.Resources.Requests = none ∨ c.Resources.Limits = none) →
      (deployLoop cluster slackCli ns hist (pre ++ W :: post)).calls.countP
        (Call.isDeleteOf W.Name) = 0) := by
  simp only [List.map_append, List.map_cons, List.nodup_append, List.nodup_cons] at hnames
  obtain ⟨_, ⟨hpost, _⟩, hdisj⟩ := hnames
  have hpre : W.Name ∉ pre.map Deployment.Name := fun hmem =>
    hdisj hmem (List.mem_cons_self _ _)
  rw [deployLoop_append] at hrun ⊢
  cases hA : (deployLoop cluster slackCli ns hist pre).panicked with
  | true => simp [hA] at hrun
  | false =>
    simp only [hA, Bool.false_eq_true, if_false] at hrun ⊢
    have hcA := deployLoop_no_delete cluster slackCli ns pre hist W.Name hpre
    have hcR := fun h => deployLoop_no_delete cluster slackCli ns post h W.Name hpost
    have hbody := deployBody_lookup_ok cluster slackCli ns _ W sel pods hsel hpods
    rw [deployLoop_cons] at hrun ⊢
    cases hB : (deployBody cluster slackCli ns
        (hist ++ effects (deployLoop cluster slackCli ns hist pre).calls) W).panicked with
    | true => simp [hB, hA] at hrun
    | false =>
      simp only [hB, Bool.false_eq_true, if_false, List.countP_append, hcA, hcR, zero_add,
        add_zero]
      constructor
      · intro ho
        have hb := hbody.1 ho
        rw [hb] at hB ⊢
        rcases remediate_cases cluster slackCli ns W
          (hist ++ effects (deployLoop cluster slackCli ns hist pre).calls) with
          ⟨e, h⟩ | ⟨e, h⟩ | ⟨err, h⟩
        · rw [h] at hB; simp at hB
        · rw [h] at hB; simp at hB
        · rw [h]; simp [List.countP_cons, Call.isDeleteOf]
      · intro ho
        rw [hbody.2 ho]
        simp [List.countP_cons, Call.isDeleteOf]

theorem main_of_list {cluster : Cluster} {getenv : String → String}
    {slackToken slackChannel : String} {items : List Deployment}
    (hrun : (main cluster getenv slackToken slackChannel).panicked = false)
    (hlist : cluster.ListDeployments [Call.Scan none] "default" = .ok items) :
    main cluster getenv slackToken slackChannel =
      ⟨Call.Scan none :: Call.ListDeployments "default" none ::
        (deployLoop cluster (mainSlack getenv slackToken slackChannel) "default"
          [Call.Scan none] items).calls,
       (deployLoop cluster (mainSlack getenv slackToken slackChannel) "default"
          [Call.Scan none] items).panicked⟩ := by
  rcases main_cases cluster getenv slackToken slackChannel with
    hm | ⟨e, hm⟩ | ⟨e, hm⟩ | ⟨items', hl, hm⟩
  · rw [hm] at hrun; simp at hrun
  · rw [hm] at hrun; simp at hrun
  · rw [hm] at hrun; simp at hrun
  · rw [hl] at hlist
    cases hlist
    exact hm

end DeleteDeployment

/-! ## The claims -/

namespace DeleteDeployment

/-- C1: in a run of `main` that does not abort, over listed deployments with distinct names, a
deployment `W` whose pod lookup succeeds gets exactly one delete request when some container of
some matched pod has `nil` requests or `nil` limits, and none otherwise; only the presence of
the two maps is looked at, so a deployment without matched pods gets none. -/
theorem delete_count_of_deployment (cluster : Cluster) (getenv : String → String)
    (slackToken slackChannel : String) (pre : List Deployment) (W : Deployment)
    (post : List Deployment) (sel : LabelSelector) (pods : List Pod)
    (hrun : (main cluster getenv slackToken slackChannel).panicked = false)
    (hlist : cluster.ListDeployments [Call.Scan none] "default" = .ok (pre ++ W :: post))
    (hnames : ((pre ++ W :: post).map Deployment.Name).Nodup)
    (hsel : W.Spec.Selector = some sel)
    (hpods : cluster.ListPods
      ([Call.Scan none] ++ effects (deployLoop cluster
        (mainSlack getenv slackToken slackChannel) "default" [Call.Scan none] pre).calls)
      "default" sel.MatchLabels = .ok pods) :
    ((∃ p ∈ pods, ∃ c ∈ p.Spec.Containers,
        c.Resources.Requests = none ∨ c.Resources.Limits = none) →
      (main cluster getenv slackToken slackChannel).calls.countP
        (Call.isDeleteOf W.Name) = 1) ∧
    ((¬ ∃ p ∈ pods, ∃ c ∈ p.Spec.Containers,
        c.Resources.Requests = none ∨ c.Resources.Limits = none) →
      (main cluster getenv slackToken slackChannel).calls.countP
        (Call.isDeleteOf W.Name) = 0) := by
  have hm := main_of_list hrun hlist
  rw [hm] at hrun
  have hloop := deployLoop_delete_count cluster (mainSlack getenv slackToken slackChannel)
    "default" [Call.Scan none] pre W post sel pods hrun hnames hsel hpods
  rw [hm]
  simpa [List.countP_cons, Call.isDeleteOf] using hloop

/-- Witness of C1 on the sample cluster: the deployment `web`, backed by one bare pod, gets
exactly one delete request; with a sized pod in its place it gets none. -/
theorem delete_count_of_deployment_witness :
    ((main webCluster noEnv "xoxb" "#ops").panicked = false ∧
      (([] ++ webDeployment :: []).map Deployment.Name).Nodup ∧
      (main webCluster noEnv "xoxb" "#ops").calls.countP
        (Call.isDeleteOf webDeployment.Name) = 1) ∧
    (main (stubCluster [webDeployment] (fun _ => .ok [webPodSized]) none none) noEnv
        "xoxb" "#ops").calls.countP (Call.isDeleteOf webDeployment.Name) = 0 :=
  ⟨⟨by decide, by decide,
    (delete_count_of_deployment webCluster noEnv "xoxb" "#ops" [] webDeployment []
      ⟨[("app", "web")]⟩ [webPodBare] (by decide) rfl (by decide) rfl rfl).1
      ⟨webPodBare, List.mem_singleton.2 rfl, ⟨"app", ⟨none, none⟩⟩, List.mem_singleton.2 rfl,
        Or.inl rfl⟩⟩,
   (delete_count_of_deployment (stubCluster [webDeployment] (fun _ => .ok [webPodSized])
      none none) noEnv "xoxb" "#ops" [] webDeployment []
      ⟨[("app", "web")]⟩ [webPodSized] (by decide) rfl (by decide) rfl rfl).2 (by decide)⟩

/-- C2: in every run of `main`, a delete request comes right after a line read that reported
no error, itself right after the pod lookup of the deployment (nothing stands between the
confirmation and the delete); and a line read that reports an error is the last call of the
run, so no delete follows it. -/
theorem confirmation_precedes_delete (cluster : Cluster) (getenv : String → String)
    (slackToken slackChannel : String) :
    (∀ (pre post : List Call) (n p : String) (r : Option String),
      (main cluster getenv slackToken slackChannel).calls = pre ++ Call.Delete n p r :: post →
      ∃ l pre', pre = pre' ++ [Call.ListPods "default" l none, Call.Scan none]) ∧
    (∀ (pre post : List Call) (e : String),
      (main cluster getenv slackToken slackChannel).calls = pre ++ Call.Scan (some e) :: post →
      post = [] ∧ (main cluster getenv slackToken slackChannel).panicked = true) := by
  constructor
  · intro pre post n p r h
    obtain ⟨items, q, rfl, hq, _⟩ := main_delete_split h
    obtain ⟨⟨l, q', rfl⟩, _⟩ := run_delete_inv (deployLoop_run cluster _ _ items _) hq
    exact ⟨l, [Call.Scan none, Call.ListDeployments "default" none] ++ q', by simp⟩
  · intro pre post e h
    rcases main_scan_split h with hdone | ⟨items, q, hq, hp⟩
    · exact hdone
    · rw [hp]
      exact run_scan_inv (deployLoop_run cluster _ _ items _) hq

/-- Witness of C2: on the sample cluster the delete of `web` follows its confirmation, and on
the same cluster with a failing confirmation read the run ends at that read. -/
theorem confirmation_precedes_delete_witness :
    ((main webCluster noEnv "xoxb" "#ops").calls =
        [Call.Scan none, Call.ListDeployments "default" none,
          Call.ListPods "default" [("app", "web")] none, Call.Scan none] ++
        Call.Delete "web" "Foreground" none ::
          (Slack.notifySlack ⟨"xoxb", "#ops"⟩ webCluster [] "default" "web"
            "empty resources constraints" "deleted") ∧
      ∃ l pre', [Call.Scan none, Call.ListDeployments "default" none,
          Call.ListPods "default" [("app", "web")] none, Call.Scan none] =
        pre' ++ [Call.ListPods "default" l none, Call.Scan none]) ∧
    ((main (stubCluster [webDeployment] samplePods (some "read error") none) noEnv
        "xoxb" "#ops").calls =
        [Call.Scan none, Call.ListDeployments "default" none,
          Call.ListPods "default" [("app", "web")] none] ++
        Call.Scan (some "read error") :: [] ∧
      (([] : List Call) = [] ∧
        (main (stubCluster [webDeployment] samplePods (some "read error") none) noEnv
          "xoxb" "#ops").panicked = true)) :=
  ⟨⟨by decide,
    (confirmation_precedes_delete webCluster noEnv "xoxb" "#ops").1
      [Call.Scan none, Call.ListDeployments "default" none,
        Call.ListPods "default" [("app", "web")] none, Call.Scan none]
      (Slack.notifySlack ⟨"xoxb", "#ops"⟩ webCluster [] "default" "web"
        "empty resources constraints" "deleted")
      "web" "Foreground" none (by decide)⟩,
   ⟨by decide,
    (confirmation_precedes_delete (stubCluster [webDeployment] samplePods (some "read error")
      none) noEnv "xoxb" "#ops").2
      [Call.Scan none, Call.ListDeployments "default" none,
        Call.ListPods "default" [("app", "web")] none]
      [] "read error" (by decide)⟩⟩

/-- C3: in every run of `main`, a delete request that returns an error is the last call of
the run and the run has panicked, so no notifier call, pod lookup, confirmation read or delete
request comes after it; and a notifier call only ever comes right after a delete request for
the same name that succeeded, so the failed request is not notified. -/
theorem failed_delete_aborts_run (cluster : Cluster) (getenv : String → String)
    (slackToken slackChannel : String) :
    (∀ (pre post : List Call) (n p e : String),
      (main cluster getenv slackToken slackChannel).calls =
        pre ++ Call.Delete n p (some e) :: post →
      post = [] ∧ (main cluster getenv slackToken slackChannel).panicked = true) ∧
    (∀ (pre post : List Call) (ns n reason action : String),
      (main cluster getenv slackToken slackChannel).calls =
        pre ++ Call.notifySlack ns n reason action :: post →
      ∃ pre', pre = pre' ++ [Call.Delete n DeletePropagationForeground none]) := by
  constructor
  · intro pre post n p e h
    obtain ⟨items, q, rfl, hq, hp⟩ := main_delete_split h
    rw [hp]
    obtain ⟨_, _, hcase⟩ := run_delete_inv (deployLoop_run cluster _ _ items _) hq
    rcases hcase with ⟨e', _, hpost, hdead⟩ | ⟨hnone, _⟩
    · exact ⟨hpost, hdead⟩
    · exact absurd hnone (by simp)
  · intro pre post ns n reason action h
    obtain ⟨items, q, rfl, hq⟩ := main_notify_split h
    obtain ⟨q', rfl⟩ := run_notify_inv (deployLoop_run cluster _ _ items _) hq
    exact ⟨[Call.Scan none, Call.ListDeployments "default" none] ++ q', by simp⟩

/-- Witness of C3: with `api` listed after `web` and a failing delete, the run ends at the
delete request for `web`; on the sample cluster the notification of `web` follows its
successful delete. -/
theorem failed_delete_aborts_run_witness :
    ((main (stubCluster [webDeployment, apiDeployment] samplePods none (some "forbidden")) noEnv
        "xoxb" "#ops").calls =
      [Call.Scan none, Call.ListDeployments "default" none,
        Call.ListPods "default" [("app", "web")] none, Call.Scan none] ++
      Call.Delete "web" "Foreground" (some "forbidden") :: [] ∧
    (([] : List Call) = [] ∧
      (main (stubCluster [webDeployment, apiDeployment] samplePods none (some "forbidden")) noEnv
        "xoxb" "#ops").panicked = true)) ∧
    ((main webCluster noEnv "xoxb" "#ops").calls =
      [Call.Scan none, Call.ListDeployments "default" none,
        Call.ListPods "default" [("app", "web")] none, Call.Scan none,
        Call.Delete "web" "Foreground" none] ++
      Call.notifySlack "default" "web" "empty resources constraints" "deleted" ::
        [Call.PostMessage "xoxb" "#ops" "" (deletedParams "default" "web") none] ∧
    ∃ pre', [Call.Scan none, Call.ListDeployments "default" none,
        Call.ListPods "default" [("app", "web")] none, Call.Scan none,
        Call.Delete "web" "Foreground" none] =
      pre' ++ [Call.Delete "web" DeletePropagationForeground none]) :=
  ⟨⟨by decide,
    (failed_delete_aborts_run
      (stubCluster [webDeployment, apiDeployment] samplePods none (some "forbidden")) noEnv
      "xoxb" "#ops").1
      [Call.Scan none, Call.ListDeployments "default" none,
        Call.ListPods "default" [("app", "web")] none, Call.Scan none]
      [] "web" "Foreground" "forbidden" (by decide)⟩,
   ⟨by decide,
    (failed_delete_aborts_run webCluster noEnv "xoxb" "#ops").2
      [Call.Scan none, Call.ListDeployments "default" none,
        Call.ListPods "default" [("app", "web")] none, Call.Scan none,
        Call.Delete "web" "Foreground" none]
      [Call.PostMessage "xoxb" "#ops" "" (deletedParams "default" "web") none]
      "default" "web" "empty resources constraints" "deleted" (by decide)⟩⟩

/-- C4: in every run of `main`, a delete request that succeeded for the name `n` is followed
at once by one notifier call with namespace `default`, name `n`, reason
`empty resources constraints` and action `deleted`, and by the post of the event built from
them; what comes next, if anything, is the pod lookup of the next deployment.  The event has
status `Danger`.  On the sample cluster (one deployment `web`, one bare pod) the run is the
listed one, with the single notification for `web`. -/
theorem successful_delete_notifies_once (cluster : Cluster) (getenv : String → String)
    (slackToken slackChannel : String) :
    (∀ (pre post : List Call) (n p : String),
      (main cluster getenv slackToken slackChannel).calls =
        pre ++ Call.Delete n p none :: post →
      ∃ err post', post =
          Call.notifySlack "default" n "empty resources constraints" "deleted" ::
          Call.PostMessage (mainSlack getenv slackToken slackChannel).Token
            (mainSlack getenv slackToken slackChannel).Channel ""
            { Attachments := [prepareSlackAttachment
                (NewKubeEvent "default" n "empty resources constraints" "deleted")],
              AsUser := true } err :: post' ∧
        (post' = [] ∨ ∃ l r rest, post' = Call.ListPods "default" l r :: rest)) ∧
    (∀ n : String,
      NewKubeEvent "default" n "empty resources constraints" "deleted" =
        { Namespace := "default", Name := n, Reason := "empty resources constraints",
          Action := "deleted", Status := "Danger" }) ∧
    main webCluster noEnv "xoxb" "#ops" =
      { calls :=
          [Call.Scan none, Call.ListDeployments "default" none,
            Call.ListPods "default" [("app", "web")] none, Call.Scan none,
            Call.Delete "web" "Foreground" none,
            Call.notifySlack "default" "web" "empty resources constraints" "deleted",
            Call.PostMessage "xoxb" "#ops" ""
              { Attachments :=
                  [{ Color := "danger",
                     Fields := [{ Title := "kubewatch",
                                  Value := "`web` in namespace `default` has been `deleted` due to `empty resources constraints`\n" }],
                     MarkdownIn := ["fields"] }],
                AsUser := true } none],
        panicked := false } := by
  refine ⟨?_, fun n => rfl, by decide⟩
  intro pre post n p h
  obtain ⟨items, q, rfl, hq, _⟩ := main_delete_split h
  obtain ⟨_, _, hcase⟩ := run_delete_inv (deployLoop_run cluster _ _ items _) hq
  rcases hcase with ⟨e', hsome, _⟩ | ⟨_, err, post', hpost, hnext⟩
  · exact absurd hsome (by simp)
  · exact ⟨err, post', hpost, hnext⟩

/-- Witness of C4: the successful delete of `web` on the sample cluster is followed by its
notification, which closes the run. -/
theorem successful_delete_notifies_once_witness :
    (main webCluster noEnv "xoxb" "#ops").calls =
      [Call.Scan none, Call.ListDeployments "default" none,
        Call.ListPods "default" [("app", "web")] none, Call.Scan none] ++
      Call.Delete "web" "Foreground" none ::
        [Call.notifySlack "default" "web" "empty resources constraints" "deleted",
         Call.PostMessage "xoxb" "#ops" "" (deletedParams "default" "web") none] ∧
    ∃ err post',
      [Call.notifySlack "default" "web" "empty resources constraints" "deleted",
       Call.PostMessage "xoxb" "#ops" "" (deletedParams "default" "web") none] =
        Call.notifySlack "default" "web" "empty resources constraints" "deleted" ::
        Call.PostMessage (mainSlack noEnv "xoxb" "#ops").Token
          (mainSlack noEnv "xoxb" "#ops").Channel ""
          { Attachments := [prepareSlackAttachment
              (NewKubeEvent "default" "web" "empty resources constraints" "deleted")],
            AsUser := true } err :: post' ∧
      (post' = [] ∨ ∃ l r rest, post' = Call.ListPods "default" l r :: rest) :=
  ⟨by decide,
   (successful_delete_notifies_once webCluster noEnv "xoxb" "#ops").1
     [Call.Scan none, Call.ListDeployments "default" none,
        Call.ListPods "default" [("app", "web")] none, Call.Scan none]
     [Call.notifySlack "default" "web" "empty resources constraints" "deleted",
      Call.PostMessage "xoxb" "#ops" "" (deletedParams "default" "web") none]
     "web" "Foreground" (by decide)⟩

/-- C5: when the pod lookup of a deployment `W` fails, the run over the list with `W` is the
run over the list without `W` with one more call, the failed lookup, at the place of `W`: no
confirmation read, delete or notification is made for `W`, the run goes on (it panics exactly
when the run without `W` does), and the calls other than lookups are the same in both runs. -/
theorem lookup_error_skips_deployment (cluster : Cluster) (slackCli : Slack) (ns : String)
    (hist : List Call) (pre : List Deployment) (W : Deployment) (post : List Deployment)
    (sel : LabelSelector) (e : String)
    (hpre : (deployLoop cluster slackCli ns hist pre).panicked = false)
    (hsel : W.Spec.Selector = some sel)
    (herr : cluster.ListPods
      (hist ++ effects (deployLoop cluster slackCli ns hist pre).calls) ns sel.MatchLabels =
        .error e) :
    deployLoop cluster slackCli ns hist (pre ++ W :: post) =
      { calls := (deployLoop cluster slackCli ns hist pre).calls ++
          Call.ListPods ns sel.MatchLabels (some e) ::
          (deployLoop cluster slackCli ns
            (hist ++ effects (deployLoop cluster slackCli ns hist pre).calls) post).calls,
        panicked := (deployLoop cluster slackCli ns
            (hist ++ effects (deployLoop cluster slackCli ns hist pre).calls) post).panicked } ∧
    deployLoop cluster slackCli ns hist (pre ++ post) =
      { calls := (deployLoop cluster slackCli ns hist pre).calls ++
          (deployLoop cluster slackCli ns
            (hist ++ effects (deployLoop cluster slackCli ns hist pre).calls) post).calls,
        panicked := (deployLoop cluster slackCli ns
            (hist ++ effects (deployLoop cluster slackCli ns hist pre).calls) post).panicked } ∧
    effects (deployLoop cluster slackCli ns hist (pre ++ W :: post)).calls =
      effects (deployLoop cluster slackCli ns hist (pre ++ post)).calls := by
  have hbody := deployBody_lookup_error cluster slackCli ns
    (hist ++ effects (deployLoop cluster slackCli ns hist pre).calls) W sel e hsel herr
  have h1 : deployLoop cluster slackCli ns hist (pre ++ W :: post) =
      { calls := (deployLoop cluster slackCli ns hist pre).calls ++
          Call.ListPods ns sel.MatchLabels (some e) ::
          (deployLoop cluster slackCli ns
            (hist ++ effects (deployLoop cluster slackCli ns hist pre).calls) post).calls,
        panicked := (deployLoop cluster slackCli ns
            (hist ++ effects (deployLoop cluster slackCli ns hist pre).calls) post).panicked } := by
    rw [deployLoop_append, deployLoop_cons, hbody]
    simp [hpre, effects, Call.isRead]
  have h2 : deployLoop cluster slackCli ns hist (pre ++ post) =
      { calls := (deployLoop cluster slackCli ns hist pre).calls ++
          (deployLoop cluster slackCli ns
            (hist ++ effects (deployLoop cluster slackCli ns hist pre).calls) post).calls,
        panicked := (deployLoop cluster slackCli ns
            (hist ++ effects (deployLoop cluster slackCli ns hist pre).calls) post).panicked } := by
    rw [deployLoop_append]
    simp [hpre]
  refine ⟨h1, h2, ?_⟩
  rw [h1, h2]
  simp [effects, Call.isRead]

/-- Witness of C5: with `api` (whose lookup fails) listed before `web` (backed by a bare pod),
`api` only adds its failed lookup and `web` is still deleted. -/
theorem lookup_error_skips_deployment_witness :
    (deployLoop (stubCluster [apiDeployment, webDeployment] samplePods none none)
        ⟨"xoxb", "#ops"⟩ "default" [Call.Scan none] []).panicked = false ∧
    (stubCluster [apiDeployment, webDeployment] samplePods none none).ListPods
        [Call.Scan none] "default" [("app", "api")] = .error "timeout" ∧
    deployLoop (stubCluster [apiDeployment, webDeployment] samplePods none none)
        ⟨"xoxb", "#ops"⟩ "default" [Call.Scan none] ([] ++ apiDeployment :: [webDeployment]) =
      { calls := [] ++ Call.ListPods "default" [("app", "api")] (some "timeout") ::
          [Call.ListPods "default" [("app", "web")] none, Call.Scan none,
            Call.Delete "web" "Foreground" none,
            Call.notifySlack "default" "web" "empty resources constraints" "deleted",
            Call.PostMessage "xoxb" "#ops" "" (deletedParams "default" "web") none],
        panicked := false } :=
  ⟨rfl, rfl,
   (lookup_error_skips_deployment
      (stubCluster [apiDeployment, webDeployment] samplePods none none)
      ⟨"xoxb", "#ops"⟩ "default" [Call.Scan none] [] apiDeployment [webDeployment]
      ⟨[("app", "api")]⟩ "timeout" rfl rfl rfl).1⟩

end DeleteDeployment

/-- C6: `NewKubeEvent` copies its four arguments into the event and sets the status to
`Danger` for the action `deleted`, `Normal` for `created`, `Warning` for `updated` and the
empty string for every other action; it is a total function. -/
theorem newKubeEvent_fields_and_status (ns name reason action : String) :
    NewKubeEvent ns name reason action =
      { Namespace := ns, Name := name, Reason := reason, Action := action,
        Status := if action = "deleted" then "Danger"
          else if action = "created" then "Normal"
          else if action = "updated" then "Warning"
          else "" } := by
  simp only [NewKubeEvent, GoMap.index, m, List.lookup]
  by_cases h1 : action = "created"
  · subst h1; rfl
  · by_cases h2 : action = "deleted"
    · subst h2; rfl
    · by_cases h3 : action = "updated"
      · subst h3; rfl
      · have e1 : (action == "created") = false := by simpa using h1
        have e2 : (action == "deleted") = false := by simpa using h2
        have e3 : (action == "updated") = false := by simpa using h3
        simp [h1, h2, h3, e1, e2, e3]

/-- C7, as stated, fails: the message of the example event is not the text of the claim, since
the format string ends with a line feed. -/
theorem message_is_not_the_claimed_text :
    KubeEvent.Message
        { Namespace := "default", Name := "name", Reason := "empty resources constraints",
          Action := "deleted", Status := "Danger" } ≠
      "`name` in namespace `default` has been `deleted` due to `empty resources constraints`" := by
  decide

/-- C7, amended: the message is the quoted name, ` in namespace `, the quoted namespace,
` has been `, the quoted action, ` due to `, the quoted reason and then one line feed. -/
theorem message_format (e : KubeEvent) :
    e.Message =
      "`" ++ e.Name ++ "` in namespace `" ++ e.Namespace ++ "` has been `" ++ e.Action ++
        "` due to `" ++ e.Reason ++ "`\n" := by
  apply String.ext
  simp [KubeEvent.Message, Sprintf, sprintfChars]

/-- C8: `InitSlack` stores the config value, or the value of the environment when the config
value is empty, and its error is non-nil exactly when the stored token or the stored channel
is empty; it is nil exactly when both are non-empty. -/
theorem initSlack_error_iff_missing (getenv : String → String) (c : Config) :
    (InitSlack getenv c).1 =
      { Token := if c.Token = "" then getenv "SLACK_TOKEN" else c.Token,
        Channel := if c.Channel = "" then getenv "SLACK_CHANNEL" else c.Channel } ∧
    ((InitSlack getenv c).2.isSome = true ↔
      ((InitSlack getenv c).1.Token = "" ∨ (InitSlack getenv c).1.Channel = "")) ∧
    ((InitSlack getenv c).2 = none ↔
      ((InitSlack getenv c).1.Token ≠ "" ∧ (InitSlack getenv c).1.Channel ≠ "")) := by
  refine ⟨rfl, ?_, ?_⟩
  · simp only [InitSlack, Slack.checkMissingSlackVars]
    split <;> simp_all
  · simp only [InitSlack, Slack.checkMissingSlackVars]
    split <;> simp_all

/-- C9 fails on the code: with an empty config and the variables `KW_SLACK_TOKEN` and
`KW_SLACK_CHANNEL` set, as the error text asks for, `InitSlack` stores an empty token and an
empty channel and returns an error, since it reads `SLACK_TOKEN` and `SLACK_CHANNEL`. -/
theorem initSlack_ignores_kw_variables :
    kwEnv "KW_SLACK_TOKEN" = "xoxb-env" ∧ kwEnv "KW_SLACK_CHANNEL" = "#ops" ∧
    (InitSlack kwEnv { Namespace := "default", Token := "", Channel := "" }).1 =
      { Token := "", Channel := "" } ∧
    (InitSlack kwEnv { Namespace := "default", Token := "", Channel := "" }).2.isSome = true := by
  decide

/-- C10 fails on the code: for the deployment `web` backed by two bare pods, the deployment
pass of delete-pods reads two confirmations and sends two delete requests for `web`, one per
offending pod. -/
theorem deletePods_remediates_once_per_pod :
    DeletePods.deploymentPass
        (stubCluster [webDeployment]
          (fun labels => if labels = [("app", "web")] then .ok [webPodBare, webPodBare2]
            else .ok []) none none) [Call.Scan none] =
      { calls :=
          [Call.Scan none, Call.ListDeployments "default" none,
            Call.ListPods "default" [("app", "web")] none,
            Call.Scan none, Call.Delete "web" "Foreground" none,
            Call.Scan none, Call.Delete "web" "Foreground" none],
        panicked := false } ∧
    (DeletePods.deploymentPass
        (stubCluster [webDeployment]
          (fun labels => if labels = [("app", "web")] then .ok [webPodBare, webPodBare2]
            else .ok []) none none) [Call.Scan none]).calls.countP
      (Call.isDeleteOf "web") = 2 := by
  decide

end K8sExecutor
